import Mathlib

/-!
# Verification of the pipeline-orchestration core of `personal-meeting-assistant`

Shallow embedding of the agent registry (`backend/app/agents/registry.py`),
the run tracker (`backend/app/agents/run_tracker.py`), the scheduler
(`backend/app/services/scheduler.py`), the status/cancel API routes
(`backend/app/api/routes/status.py`) and the composite Granola provider
(`backend/app/mcp/providers/granola.py`), together with theorems about the
orchestration properties the specification states.

Conventions of the embedding:
* Python dicts whose keys matter to the code are structures whose optional
  keys are `Option` fields; `dict.get(k, d)` is `Option.getD`.
* Raised exceptions are `Except.error` / `Option.none` results; `try/except`
  blocks are `match`es on those results.
* Wall-clock instants are integers counted in minutes (the only time unit the
  modelled code compares against); durations in milliseconds stay abstract
  parameters.
* Each external sub-system (a sub-provider call, an agent's `process`) is a
  value describing the outcome of its one invocation in the modelled run.
-/

namespace MeetingAssistant

/-! ## Agents and the registry (`app/agents/base.py`, `app/agents/registry.py`)

`BaseAgent` subclasses declare `name`, `pipeline` and `dependencies`
(class attributes); the registry keeps the registered agents in insertion
order.  `register` refuses duplicate names, so a well-formed registry has
pairwise-distinct agent names (`AgentRegistry.WF`). -/

structure Agent where
  name : String
  pipeline : String
  dependencies : List String
  deriving DecidableEq, Repr

structure AgentRegistry where
  agents : List Agent
  deriving DecidableEq, Repr

/-- `register` raises on a duplicate name, so every registry reachable through
it has pairwise-distinct agent names. -/
def AgentRegistry.WF (r : AgentRegistry) : Prop :=
  (r.agents.map Agent.name).Nodup

/-- `list_by_pipeline`: the registered agents of one pipeline, in
registration order. -/
def AgentRegistry.list_by_pipeline (r : AgentRegistry) (p : String) : List Agent :=
  r.agents.filter fun a => a.pipeline == p

/-- `pipeline_names` in `resolve_dependencies`: the names of the pipeline's
agents (Python keeps a set; only membership is ever used). -/
def AgentRegistry.pipeline_names (r : AgentRegistry) (p : String) : List String :=
  (r.list_by_pipeline p).map Agent.name

/-- The graph `resolve_dependencies` hands to `TopologicalSorter`: one node
per pipeline agent, its predecessor set the declared dependencies that name
agents of the same pipeline (`{d for d in agent.dependencies if d in
pipeline_names}`). -/
def AgentRegistry.build_graph (r : AgentRegistry) (p : String) :
    List (String × List String) :=
  (r.list_by_pipeline p).map fun a =>
    (a.name, a.dependencies.filter fun d => decide (d ∈ r.pipeline_names p))

/-- A node is ready when all its predecessors are already emitted. -/
def nodeReady (out : List String) (nd : String × List String) : Bool :=
  nd.2.all fun d => decide (d ∈ out)

/-- Kahn's algorithm as `graphlib.TopologicalSorter.static_order` runs it:
emit every ready node, repeat; when nodes remain but none is ready the sorter
raises `CycleError` (`none` here).  The fuel argument bounds the rounds; each
successful round emits at least one node, so `length + 1` rounds always
suffice. -/
def topoSortAux : Nat → List String → List (String × List String) → Option (List String)
  | 0, _, _ => none
  | fuel + 1, out, remaining =>
    if remaining = [] then some out
    else if remaining.filter (nodeReady out) = [] then none
    else
      topoSortAux fuel (out ++ (remaining.filter (nodeReady out)).map Prod.fst)
        (remaining.filter fun nd => !nodeReady out nd)

def topoSort (graph : List (String × List String)) : Option (List String) :=
  topoSortAux (graph.length + 1) [] graph

/-- `AgentRegistry.resolve_dependencies`: topologically sorted agent names of
a pipeline; `none` models the `CycleError` raised by `static_order`. -/
def AgentRegistry.resolve_dependencies (r : AgentRegistry) (p : String) :
    Option (List String) :=
  topoSort (r.build_graph p)

/-- The issue string `validate` records for one unresolved reference. -/
def issueMsg (agentName dep : String) : String :=
  "Agent " ++ agentName ++ " depends on unknown agent " ++ dep

/-- The accumulation loop of `AgentRegistry.validate`. -/
def validateIssues (allNames : List String) : List Agent → List String
  | [] => []
  | a :: rest =>
    ((a.dependencies.filter fun d => !decide (d ∈ allNames)).map fun d =>
      issueMsg a.name d) ++ validateIssues allNames rest

/-- `AgentRegistry.validate`: one issue per dependency reference that does
not resolve to a registered agent, across every agent. -/
def AgentRegistry.validate (r : AgentRegistry) : List String :=
  validateIssues (r.agents.map Agent.name) r.agents

/-! ### Positions and orderings in the emitted list -/

/-- Index of the first occurrence of `x` (the length when `x` is absent). -/
def idxOf (x : String) : List String → Nat
  | [] => 0
  | a :: l => if a = x then 0 else idxOf x l + 1

/-- `x` occurs strictly before `y` in `l`. -/
def Before (x y : String) (l : List String) : Prop :=
  ∃ l₁ l₂, l = l₁ ++ l₂ ∧ x ∈ l₁ ∧ y ∈ l₂

/-- `x` depends on `y` in `graph`: some node named `x` lists `y` as a
predecessor. -/
def DependsOn (graph : List (String × List String)) (x y : String) : Prop :=
  ∃ nd ∈ graph, nd.1 = x ∧ y ∈ nd.2

/-- A dependency cycle: a chain of dependencies starting at `n` whose last
element depends back on `n` (the one-element chain is a self-loop). -/
def HasDepCycle (graph : List (String × List String)) : Prop :=
  ∃ (n : String) (rest : List String),
    List.Chain (DependsOn graph) n rest ∧ DependsOn graph (rest.getLastD n) n

/-- A ranking certificate of acyclicity: every edge strictly raises the rank.
A finite dependency graph is acyclic exactly when such a rank exists. -/
def RankedAcyclic (graph : List (String × List String)) : Prop :=
  ∃ rank : String → Nat, ∀ nd ∈ graph, ∀ d ∈ nd.2, rank d < rank nd.1

/-- Erase from an agent of pipeline `p` the declared dependencies that do not
name an agent of that pipeline (other agents are kept as they are). -/
def stripAgent (r : AgentRegistry) (p : String) (a : Agent) : Agent :=
  if a.pipeline == p then
    { a with dependencies := a.dependencies.filter fun d => decide (d ∈ r.pipeline_names p) }
  else a

/-- The registry with every out-of-pipeline dependency name of pipeline `p`
erased; `resolve_dependencies` cannot tell it from the original. -/
def AgentRegistry.stripExternalDeps (r : AgentRegistry) (p : String) : AgentRegistry :=
  ⟨r.agents.map (stripAgent r p)⟩

/-! ### Helper lemmas about lists -/

theorem length_filter_not_add (p : α → Bool) (l : List α) :
    (l.filter p).length + (l.filter fun a => !p a).length = l.length := by
  simpa using (List.filter_append_perm p l).length_eq

theorem exists_min_by {α : Type} (f : α → Nat) :
    ∀ l : List α, l ≠ [] → ∃ m ∈ l, ∀ b ∈ l, f m ≤ f b := by
  intro l
  induction l with
  | nil => intro h; exact absurd rfl h
  | cons a t ih =>
    intro _
    cases t with
    | nil =>
      refine ⟨a, List.mem_singleton_self a, ?_⟩
      intro b hb
      rw [List.mem_singleton.mp hb]
    | cons c u =>
      obtain ⟨m, hm, hmin⟩ := ih (by simp)
      by_cases hf : f a ≤ f m
      · refine ⟨a, List.mem_cons_self a _, ?_⟩
        intro b hb
        rcases List.mem_cons.mp hb with hb | hb
        · rw [hb]
        · exact le_trans hf (hmin b hb)
      · refine ⟨m, List.mem_cons_of_mem a hm, ?_⟩
        intro b hb
        rcases List.mem_cons.mp hb with hb | hb
        · rw [hb]; omega
        · exact hmin b hb

theorem idxOf_append_lt {x y : String} {l₁ l₂ : List String}
    (hx : x ∈ l₁) (hy : y ∉ l₁) :
    idxOf x (l₁ ++ l₂) < idxOf y (l₁ ++ l₂) := by
  induction l₁ with
  | nil => exact absurd hx (List.not_mem_nil x)
  | cons a t ih =>
    have hya : a ≠ y := fun h => hy (h ▸ List.mem_cons_self a t)
    by_cases hax : a = x
    · simp only [List.cons_append, idxOf, if_pos hax, if_neg hya]
      omega
    · have hxt : x ∈ t := (List.mem_cons.mp hx).resolve_left fun h => hax h.symm
      have hyt : y ∉ t := fun h => hy (List.mem_cons_of_mem a h)
      have hih := ih hxt hyt
      rw [List.cons_append]
      simp only [idxOf, if_neg hax, if_neg hya]
      omega

theorem before_idxOf_lt {x y : String} {l : List String}
    (hnd : l.Nodup) (h : Before x y l) : idxOf x l < idxOf y l := by
  obtain ⟨l₁, l₂, rfl, hx, hy⟩ := h
  have hdisj := (List.nodup_append.mp hnd).2.2
  exact idxOf_append_lt hx fun hy1 => hdisj hy1 hy

theorem before_mem_left {x y : String} {l : List String} (h : Before x y l) : x ∈ l := by
  obtain ⟨l₁, l₂, rfl, hx, _⟩ := h
  exact List.mem_append_left _ hx

theorem before_mem_right {x y : String} {l : List String} (h : Before x y l) : y ∈ l := by
  obtain ⟨l₁, l₂, rfl, _, hy⟩ := h
  exact List.mem_append_right _ hy

/-! ### Soundness and completeness of the embedded topological sort -/

theorem topoSortAux_sound :
    ∀ (fuel : Nat) (out : List String) (remaining : List (String × List String))
      (l : List String), topoSortAux fuel out remaining = some l →
      ∃ t, l = out ++ t ∧ t.Perm (remaining.map Prod.fst) ∧
        ∀ nd ∈ remaining, ∀ d ∈ nd.2, d ∉ out → Before d nd.1 t := by
  intro fuel
  induction fuel with
  | zero => intro out remaining l h; exact absurd h (by simp [topoSortAux])
  | succ fuel ih =>
    intro out remaining l h
    by_cases hrem : remaining = []
    · subst hrem
      simp [topoSortAux] at h
      exact ⟨[], by simp [h], by simp, by simp⟩
    · by_cases hready : remaining.filter (nodeReady out) = []
      · simp [topoSortAux, hrem, hready] at h
      · simp only [topoSortAux, if_neg hrem, if_neg hready] at h
        obtain ⟨t', hl, hperm, hbef⟩ := ih _ _ _ h
        set rn := (remaining.filter (nodeReady out)).map Prod.fst with hrn
        set rest := remaining.filter (fun nd => !nodeReady out nd) with hrest
        refine ⟨rn ++ t', by simpa [List.append_assoc] using hl, ?_, ?_⟩
        · have h1 : (rn ++ t').Perm (rn ++ rest.map Prod.fst) :=
            List.Perm.append_left rn hperm
          have h2 : (remaining.filter (nodeReady out) ++ rest).Perm remaining :=
            List.filter_append_perm _ remaining
          have h3 : (rn ++ rest.map Prod.fst).Perm (remaining.map Prod.fst) := by
            have := h2.map Prod.fst
            simpa [List.map_append] using this
          exact h1.trans h3
        · intro nd hnd d hd hdout
          by_cases hr : nodeReady out nd
          · exfalso
            have := List.all_eq_true.mp hr d hd
            exact hdout (of_decide_eq_true this)
          · have hndrest : nd ∈ rest := by
              rw [hrest, List.mem_filter]
              exact ⟨hnd, by simp [hr]⟩
            have hnd1 : nd.1 ∈ t' :=
              hperm.symm.mem_iff.mp (List.mem_map.mpr ⟨nd, hndrest, rfl⟩)
            by_cases hdrn : d ∈ rn
            · exact ⟨rn, t', rfl, hdrn, hnd1⟩
            · have hdout2 : d ∉ out ++ rn := by
                intro hmem
                rcases List.mem_append.mp hmem with hmem | hmem
                · exact hdout hmem
                · exact hdrn hmem
              obtain ⟨t₁, t₂, ht, hdt, hyt⟩ := hbef nd hndrest d hd hdout2
              exact ⟨rn ++ t₁, t₂, by rw [ht, List.append_assoc], List.mem_append_right _ hdt, hyt⟩

theorem topoSortAux_complete (rank : String → Nat) :
    ∀ (fuel : Nat) (out : List String) (remaining : List (String × List String)),
      remaining.length < fuel →
      (∀ nd ∈ remaining, ∀ d ∈ nd.2, d ∈ out ∨ d ∈ remaining.map Prod.fst) →
      (∀ nd ∈ remaining, ∀ d ∈ nd.2, rank d < rank nd.1) →
      ∃ l, topoSortAux fuel out remaining = some l := by
  intro fuel
  induction fuel with
  | zero => intro out remaining hlen; omega
  | succ fuel ih =>
    intro out remaining hlen hclose hrank
    by_cases hrem : remaining = []
    · exact ⟨out, by simp [topoSortAux, hrem]⟩
    · obtain ⟨m, hm, hmin⟩ := exists_min_by (fun nd => rank nd.1) remaining hrem
      have hmready : nodeReady out m = true := by
        rw [nodeReady, List.all_eq_true]
        intro d hd
        rcases hclose m hm d hd with hout | hin
        · exact decide_eq_true hout
        · exfalso
          obtain ⟨nd', hnd', hfst⟩ := List.mem_map.mp hin
          have h1 : rank d < rank m.1 := hrank m hm d hd
          have h2 : rank m.1 ≤ rank nd'.1 := hmin nd' hnd'
          rw [hfst] at h2
          omega
      have hready : remaining.filter (nodeReady out) ≠ [] :=
        List.ne_nil_of_mem (List.mem_filter.mpr ⟨hm, hmready⟩)
      set rn := (remaining.filter (nodeReady out)).map Prod.fst with hrn
      set rest := remaining.filter (fun nd => !nodeReady out nd) with hrest
      have hsub : ∀ nd ∈ rest, nd ∈ remaining := fun nd hnd =>
        (List.mem_filter.mp hnd).1
      have hlen' : rest.length < fuel := by
        have hsplit := length_filter_not_add (nodeReady out) remaining
        have hpos : 0 < (remaining.filter (nodeReady out)).length :=
          List.length_pos.mpr hready
        rw [hrest]
        omega
      have hclose' : ∀ nd ∈ rest, ∀ d ∈ nd.2, d ∈ out ++ rn ∨ d ∈ rest.map Prod.fst := by
        intro nd hnd d hd
        rcases hclose nd (hsub nd hnd) d hd with hout | hin
        · exact Or.inl (List.mem_append_left _ hout)
        · obtain ⟨nd', hnd', hfst⟩ := List.mem_map.mp hin
          by_cases hr : nodeReady out nd'
          · refine Or.inl (List.mem_append_right _ ?_)
            exact List.mem_map.mpr ⟨nd', List.mem_filter.mpr ⟨hnd', hr⟩, hfst⟩
          · refine Or.inr (List.mem_map.mpr ⟨nd', ?_, hfst⟩)
            rw [hrest, List.mem_filter]
            exact ⟨hnd', by simp [hr]⟩
      have hrank' : ∀ nd ∈ rest, ∀ d ∈ nd.2, rank d < rank nd.1 :=
        fun nd hnd => hrank nd (hsub nd hnd)
      obtain ⟨l, hl⟩ := ih (out ++ rn) rest hlen' hclose' hrank'
      refine ⟨l, ?_⟩
      rw [topoSortAux]
      simp only [if_neg hrem, if_neg hready]
      exact hl

theorem topoSort_sound {graph : List (String × List String)} {l : List String}
    (h : topoSort graph = some l) :
    l.Perm (graph.map Prod.fst) ∧ ∀ nd ∈ graph, ∀ d ∈ nd.2, Before d nd.1 l := by
  obtain ⟨t, hl, hperm, hbef⟩ := topoSortAux_sound _ _ _ _ h
  simp only [List.nil_append] at hl
  subst hl
  exact ⟨hperm, fun nd hnd d hd => hbef nd hnd d hd (List.not_mem_nil d)⟩

theorem topoSort_complete {graph : List (String × List String)}
    (hclose : ∀ nd ∈ graph, ∀ d ∈ nd.2, d ∈ graph.map Prod.fst)
    (hacyc : RankedAcyclic graph) : ∃ l, topoSort graph = some l := by
  obtain ⟨rank, hrank⟩ := hacyc
  exact topoSortAux_complete rank (graph.length + 1) [] graph (by omega)
    (fun nd hnd d hd => Or.inr (hclose nd hnd d hd)) hrank

theorem build_graph_keys (r : AgentRegistry) (p : String) :
    (r.build_graph p).map Prod.fst = r.pipeline_names p := by
  simp [AgentRegistry.build_graph, AgentRegistry.pipeline_names, List.map_map,
    Function.comp]

theorem build_graph_closed (r : AgentRegistry) (p : String) :
    ∀ nd ∈ r.build_graph p, ∀ d ∈ nd.2, d ∈ (r.build_graph p).map Prod.fst := by
  intro nd hnd d hd
  rw [build_graph_keys]
  obtain ⟨a, _, rfl⟩ := List.mem_map.mp hnd
  simp only [List.mem_filter] at hd
  exact of_decide_eq_true hd.2

theorem pipeline_names_nodup {r : AgentRegistry} (hwf : r.WF) (p : String) :
    (r.pipeline_names p).Nodup := by
  have hsub : (r.pipeline_names p).Sublist (r.agents.map Agent.name) :=
    (List.filter_sublist r.agents).map Agent.name
  exact hwf.sublist hsub

theorem build_graph_mem (r : AgentRegistry) (p : String) {a : Agent}
    (ha : a ∈ r.list_by_pipeline p) :
    (a.name, a.dependencies.filter fun d => decide (d ∈ r.pipeline_names p)) ∈
      r.build_graph p :=
  List.mem_map.mpr ⟨a, ha, rfl⟩

theorem stripAgent_pipeline (r : AgentRegistry) (p : String) (a : Agent) :
    (stripAgent r p a).pipeline = a.pipeline := by
  unfold stripAgent
  split <;> rfl

theorem stripAgent_name (r : AgentRegistry) (p : String) (a : Agent) :
    (stripAgent r p a).name = a.name := by
  unfold stripAgent
  split <;> rfl

theorem stripExternalDeps_list_by_pipeline (r : AgentRegistry) (p : String) :
    (r.stripExternalDeps p).list_by_pipeline p =
      (r.list_by_pipeline p).map (stripAgent r p) := by
  unfold AgentRegistry.stripExternalDeps AgentRegistry.list_by_pipeline
  rw [List.filter_map]
  congr 1
  refine List.filter_congr fun a _ => ?_
  simp only [Function.comp_apply, stripAgent_pipeline]

theorem stripExternalDeps_pipeline_names (r : AgentRegistry) (p : String) :
    (r.stripExternalDeps p).pipeline_names p = r.pipeline_names p := by
  unfold AgentRegistry.pipeline_names
  rw [stripExternalDeps_list_by_pipeline, List.map_map]
  refine List.map_congr_left fun a _ => ?_
  simp only [Function.comp_apply, stripAgent_name]

theorem stripExternalDeps_build_graph (r : AgentRegistry) (p : String) :
    (r.stripExternalDeps p).build_graph p = r.build_graph p := by
  unfold AgentRegistry.build_graph
  rw [stripExternalDeps_pipeline_names, stripExternalDeps_list_by_pipeline,
    List.map_map]
  refine List.map_congr_left fun a ha => ?_
  have hmem : (a.pipeline == p) = true := (List.mem_filter.mp ha).2
  simp only [Function.comp_apply, stripAgent, if_pos hmem]
  rw [List.filter_filter]
  refine congrArg (Prod.mk a.name) (List.filter_congr fun d _ => ?_)
  exact Bool.and_self _

theorem stripExternalDeps_resolve (r : AgentRegistry) (p : String) :
    (r.stripExternalDeps p).resolve_dependencies p = r.resolve_dependencies p := by
  unfold AgentRegistry.resolve_dependencies
  rw [stripExternalDeps_build_graph]

theorem validateIssues_length (allNames : List String) (agents : List Agent) :
    (validateIssues allNames agents).length =
      (agents.map fun a =>
        (a.dependencies.filter fun d => !decide (d ∈ allNames)).length).sum := by
  induction agents with
  | nil => rfl
  | cons a rest ih => simp [validateIssues, ih]

theorem validateIssues_mem (allNames : List String) (agents : List Agent) :
    ∀ a ∈ agents, ∀ d ∈ a.dependencies, d ∉ allNames →
      issueMsg a.name d ∈ validateIssues allNames agents := by
  intro a ha d hd hmiss
  induction agents with
  | nil => exact absurd ha (List.not_mem_nil a)
  | cons b rest ih =>
    rw [validateIssues, List.mem_append]
    rcases List.mem_cons.mp ha with hb | hb
    · subst hb
      refine Or.inl (List.mem_map.mpr ⟨d, ?_, rfl⟩)
      rw [List.mem_filter]
      exact ⟨hd, by simp [hmiss]⟩
    · exact Or.inr (ih hb)

theorem validateIssues_sources (allNames : List String) (agents : List Agent) :
    ∀ issue ∈ validateIssues allNames agents,
      ∃ a ∈ agents, ∃ d ∈ a.dependencies, d ∉ allNames ∧ issue = issueMsg a.name d := by
  intro issue hissue
  induction agents with
  | nil => exact absurd hissue (List.not_mem_nil issue)
  | cons b rest ih =>
    rw [validateIssues, List.mem_append] at hissue
    rcases hissue with h | h
    · obtain ⟨d, hd, rfl⟩ := List.mem_map.mp h
      rw [List.mem_filter] at hd
      refine ⟨b, List.mem_cons_self b rest, d, hd.1, ?_, rfl⟩
      have := hd.2
      simp only [Bool.not_eq_true'] at this
      exact of_decide_eq_false this
    · obtain ⟨a, ha, d, hd, hmiss, heq⟩ := ih h
      exact ⟨a, List.mem_cons_of_mem b ha, d, hd, hmiss, heq⟩

theorem chain_getLastD_le (f : String → Nat) (R : String → String → Prop)
    (hR : ∀ x y, R x y → f y < f x) :
    ∀ (rest : List String) (n : String), List.Chain R n rest →
      f (rest.getLastD n) ≤ f n := by
  intro rest
  induction rest with
  | nil => intro n _; simp [List.getLastD]
  | cons b t ih =>
    intro n hchain
    cases hchain with
    | cons hnb hbt =>
      rw [List.getLastD_cons]
      exact le_trans (ih b hbt) (le_of_lt (hR n b hnb))

/-- The registry as `auto_discover` builds it from the repository's agent
modules (modules are imported in alphabetical order, each registering its
agent class). -/
def repoRegistry : AgentRegistry :=
  ⟨[⟨"briefing_generator", "briefing", ["calendar_agent"]⟩,
    ⟨"calendar_agent", "briefing", []⟩,
    ⟨"entity_extraction", "sync", ["meeting_sync"]⟩,
    ⟨"meeting_sync", "sync", []⟩,
    ⟨"profile_builder", "sync", ["relationship_builder"]⟩,
    ⟨"relationship_builder", "sync", ["entity_extraction"]⟩]⟩

/-- A registry whose sync pipeline declares a two-agent dependency cycle. -/
def cyclicRegistry : AgentRegistry :=
  ⟨[⟨"alpha", "sync", ["beta"]⟩, ⟨"beta", "sync", ["alpha"]⟩]⟩

/-- A registry with one agent whose dependency resolves to no registered
agent. -/
def danglingRegistry : AgentRegistry :=
  ⟨[⟨"briefing_generator", "briefing", ["ghost"]⟩]⟩

/-- C1: for every well-formed registry whose in-pipeline dependency graph is
acyclic (witnessed by a rank function, which for a finite graph exists
exactly when the graph is acyclic), `resolve_dependencies` returns a total
order holding exactly the pipeline's agent names, in which every agent sits
at a strictly greater index than each of its in-pipeline dependencies; and
dependency names referring to agents outside the pipeline have no effect on
the result (erasing them all leaves the result unchanged). -/
theorem resolve_dependencies_topological (r : AgentRegistry) (p : String)
    (hwf : r.WF) (hacyc : RankedAcyclic (r.build_graph p)) :
    (∃ l, r.resolve_dependencies p = some l ∧ l.Perm (r.pipeline_names p) ∧
        ∀ a ∈ r.list_by_pipeline p, ∀ d ∈ a.dependencies, d ∈ r.pipeline_names p →
          idxOf d l < idxOf a.name l ∧ d ∈ l ∧ a.name ∈ l) ∧
      (r.stripExternalDeps p).resolve_dependencies p = r.resolve_dependencies p := by
  refine ⟨?_, stripExternalDeps_resolve r p⟩
  obtain ⟨l, hl⟩ := topoSort_complete (build_graph_closed r p) hacyc
  obtain ⟨hperm, hbef⟩ := topoSort_sound hl
  rw [build_graph_keys] at hperm
  have hnodup : l.Nodup := hperm.symm.nodup (pipeline_names_nodup hwf p)
  refine ⟨l, hl, hperm, ?_⟩
  intro a ha d hd hdp
  have hmem := build_graph_mem r p ha
  have hdfil : d ∈ a.dependencies.filter fun d => decide (d ∈ r.pipeline_names p) :=
    List.mem_filter.mpr ⟨hd, decide_eq_true hdp⟩
  have hbefore := hbef _ hmem d hdfil
  exact ⟨before_idxOf_lt hnodup hbefore, before_mem_left hbefore,
    before_mem_right hbefore⟩

/-- Witness for C1 at the repository's own registry and its sync pipeline. -/
theorem resolve_dependencies_topological_witness :
    (∃ l, repoRegistry.resolve_dependencies "sync" = some l ∧
        l.Perm (repoRegistry.pipeline_names "sync") ∧
        ∀ a ∈ repoRegistry.list_by_pipeline "sync", ∀ d ∈ a.dependencies,
          d ∈ repoRegistry.pipeline_names "sync" →
          idxOf d l < idxOf a.name l ∧ d ∈ l ∧ a.name ∈ l) ∧
      (repoRegistry.stripExternalDeps "sync").resolve_dependencies "sync" =
        repoRegistry.resolve_dependencies "sync" :=
  resolve_dependencies_topological repoRegistry "sync"
    (by unfold AgentRegistry.WF; decide)
    ⟨fun s => if s = "meeting_sync" then 0 else if s = "entity_extraction" then 1
      else if s = "relationship_builder" then 2 else 3, by decide⟩

/-- C8: a declared in-pipeline dependency cycle makes `resolve_dependencies`
fail with the cycle error (the `CycleError` `graphlib` raises while building
the order) instead of returning any order. -/
theorem resolve_dependencies_cycle_error (r : AgentRegistry) (p : String)
    (hwf : r.WF) (hcyc : HasDepCycle (r.build_graph p)) :
    r.resolve_dependencies p = none := by
  cases hres : r.resolve_dependencies p with
  | none => rfl
  | some l =>
    exfalso
    obtain ⟨hperm, hbef⟩ := topoSort_sound hres
    have hnodup : l.Nodup := by
      rw [build_graph_keys] at hperm
      exact hperm.symm.nodup (pipeline_names_nodup hwf p)
    have hedge : ∀ x y, DependsOn (r.build_graph p) x y → idxOf y l < idxOf x l := by
      intro x y hdep
      obtain ⟨nd, hmem, hx, hy⟩ := hdep
      have hbefore := hbef nd hmem y hy
      rw [hx] at hbefore
      exact before_idxOf_lt hnodup hbefore
    obtain ⟨n, rest, hchain, hlast⟩ := hcyc
    have h1 : idxOf n l < idxOf (rest.getLastD n) l := hedge _ _ hlast
    have h2 : idxOf (rest.getLastD n) l ≤ idxOf n l :=
      chain_getLastD_le (fun s => idxOf s l) _ hedge rest n hchain
    omega

/-- Witness for C8: two sync agents depending on each other. -/
theorem resolve_dependencies_cycle_error_witness :
    cyclicRegistry.resolve_dependencies "sync" = none :=
  resolve_dependencies_cycle_error cyclicRegistry "sync"
    (by unfold AgentRegistry.WF; decide)
    ⟨"alpha", ["beta"], List.Chain.cons (by unfold DependsOn; decide) List.Chain.nil,
      by unfold DependsOn; decide⟩

/-- C9: `validate` returns one issue per dependency-name reference that does
not resolve to a registered agent; each issue is the message naming the
declaring agent and the missing dependency, every unresolved reference is
reported, every issue stems from an unresolved reference, and the issue list
is empty exactly when every reference resolves. -/
theorem validate_reports_unresolved_deps (r : AgentRegistry) :
    (r.validate.length =
      (r.agents.map fun a =>
        (a.dependencies.filter fun d =>
          !decide (d ∈ r.agents.map Agent.name)).length).sum) ∧
    (∀ a ∈ r.agents, ∀ d ∈ a.dependencies, d ∉ r.agents.map Agent.name →
      issueMsg a.name d ∈ r.validate) ∧
    (∀ issue ∈ r.validate, ∃ a ∈ r.agents, ∃ d ∈ a.dependencies,
      d ∉ r.agents.map Agent.name ∧ issue = issueMsg a.name d) ∧
    (r.validate = [] ↔ ∀ a ∈ r.agents, ∀ d ∈ a.dependencies,
      d ∈ r.agents.map Agent.name) := by
  refine ⟨validateIssues_length _ _, validateIssues_mem _ _,
    validateIssues_sources _ _, ?_, ?_⟩
  · intro hempty a ha d hd
    by_contra hmiss
    have hmem := validateIssues_mem _ _ a ha d hd hmiss
    rw [AgentRegistry.validate] at hempty
    rw [hempty] at hmem
    exact absurd hmem (List.not_mem_nil _)
  · intro hall
    cases hv : r.validate with
    | nil => rfl
    | cons i rest =>
      exfalso
      have hi : i ∈ r.validate := hv ▸ List.mem_cons_self i rest
      obtain ⟨a, ha, d, hd, hmiss, _⟩ := validateIssues_sources _ _ i hi
      exact hmiss (hall a ha d hd)

/-- Witness for C9: a dangling dependency is reported and named. -/
theorem validate_reports_unresolved_deps_witness :
    issueMsg "briefing_generator" "ghost" ∈ danglingRegistry.validate :=
  (validate_reports_unresolved_deps danglingRegistry).2.1
    ⟨"briefing_generator", "briefing", ["ghost"]⟩ (by decide) "ghost" (by decide)
    (by decide)

/-! ## The composite Granola provider (`app/mcp/providers/granola.py`)

`GranolaProvider` wraps the MCP sub-provider (primary) and the local-cache
sub-provider (secondary).  A sub-provider is modelled by its connection flag
and by the outcome of the one call the composite may make on it in the
modelled invocation: `execResult` for `execute_tool`, `healthResult` for
`health_check` (`Except.error` models a raised exception). -/

inductive ProviderStatus
  | healthy
  | degraded
  | disconnected
  deriving DecidableEq, Repr

structure SubProvider (ε α : Type) where
  is_connected : Bool
  execResult : Except ε α
  healthResult : Except Unit ProviderStatus

structure GranolaProvider (ε α : Type) where
  mcp : SubProvider ε α
  cache : SubProvider ε α
  last_source : String

/-- The error a composite `execute_tool` call can raise: an exception
propagated out of a sub-provider call, or the `RuntimeError` raised when no
connected sub-provider is left to try. -/
inductive ToolError (ε : Type)
  | fromSub (e : ε)
  | runtimeNotConnected

/-- The cache leg of `execute_tool`: note the Python code assigns
`self._last_source = "cache"` before awaiting the cache call, so the
exception path also leaves `last_source = "cache"`. -/
def GranolaProvider.cacheStep (g : GranolaProvider ε α) :
    Except (ToolError ε) α × GranolaProvider ε α :=
  if g.cache.is_connected then
    match g.cache.execResult with
    | .ok v => (.ok v, { g with last_source := "cache" })
    | .error e => (.error (.fromSub e), { g with last_source := "cache" })
  else (.error .runtimeNotConnected, g)

/-- `GranolaProvider.execute_tool`: try the MCP sub-provider first when it is
connected; on any exception fall through to the cache sub-provider; raise
`RuntimeError` when no connected sub-provider is left. -/
def GranolaProvider.execute_tool (g : GranolaProvider ε α) :
    Except (ToolError ε) α × GranolaProvider ε α :=
  if g.mcp.is_connected then
    match g.mcp.execResult with
    | .ok v => (.ok v, { g with last_source := "mcp" })
    | .error _ => g.cacheStep
  else g.cacheStep

/-- The cache leg of `health_check`: a healthy cache answer is healthy, any
other answer is degraded, a raised exception falls through to
disconnected. -/
def GranolaProvider.cacheHealthStep (g : GranolaProvider ε α) : ProviderStatus :=
  if g.cache.is_connected then
    match g.cache.healthResult with
    | .ok s => if s = ProviderStatus.healthy then ProviderStatus.healthy
        else ProviderStatus.degraded
    | .error _ => ProviderStatus.disconnected
  else ProviderStatus.disconnected

/-- `GranolaProvider.health_check`: a healthy MCP answer short-circuits; any
other MCP outcome (unhealthy answer or exception) falls through to the cache
leg. -/
def GranolaProvider.health_check (g : GranolaProvider ε α) : ProviderStatus :=
  if g.mcp.is_connected then
    match g.mcp.healthResult with
    | .ok s => if s = ProviderStatus.healthy then ProviderStatus.healthy
        else g.cacheHealthStep
    | .error _ => g.cacheHealthStep
  else g.cacheHealthStep

def exceptFailed : Except ε α → Bool
  | .error _ => true
  | .ok _ => false

/-- C2: when the MCP (primary) sub-provider is connected it is tried first
and a successful answer is returned from it with `last_source = "mcp"`; when
its call raises and the cache (secondary) sub-provider is connected, the call
returns the cache's result and `last_source` afterwards equals `"cache"`;
and the call raises exactly when the primary fails or is not connected and
the secondary also fails or is not connected. -/
theorem granola_execute_tool_fallback {ε α : Type} (g : GranolaProvider ε α) :
    (∀ v : α, g.mcp.is_connected = true → g.mcp.execResult = .ok v →
      g.execute_tool = (.ok v, { g with last_source := "mcp" })) ∧
    (g.mcp.is_connected = true → exceptFailed g.mcp.execResult = true →
      g.cache.is_connected = true →
      (∀ w : α, g.cache.execResult = .ok w →
        g.execute_tool = (.ok w, { g with last_source := "cache" })) ∧
      (g.execute_tool).2.last_source = "cache") ∧
    (exceptFailed (g.execute_tool).1 = true ↔
      (g.mcp.is_connected = false ∨ exceptFailed g.mcp.execResult = true) ∧
      (g.cache.is_connected = false ∨ exceptFailed g.cache.execResult = true)) := by
  unfold GranolaProvider.execute_tool GranolaProvider.cacheStep
  rcases g with ⟨⟨mc, me, mh⟩, ⟨cc, ce, ch⟩, ls⟩
  refine ⟨?_, ?_, ?_⟩
  · intro v hmc hme
    simp only at hmc hme
    subst hmc hme
    simp
  · intro hmc hfail hcc
    simp only at hmc hcc
    subst hmc hcc
    cases me with
    | ok v => simp [exceptFailed] at hfail
    | error e =>
      refine ⟨?_, ?_⟩
      · intro w hce
        simp only at hce
        subst hce
        simp
      · cases ce <;> simp
  · cases mc <;> cases cc <;> cases me <;> cases ce <;> simp [exceptFailed]

/-- A concrete composite provider: MCP connected but failing, cache
connected and answering. -/
def fallbackExample : GranolaProvider String Nat :=
  { mcp := { is_connected := true, execResult := .error "boom",
               healthResult := .error () },
    cache := { is_connected := true, execResult := .ok 7,
               healthResult := .ok .healthy },
    last_source := "unknown" }

/-- Witness for C2: the failing-primary call is served by the cache and
`last_source` records it. -/
theorem granola_execute_tool_fallback_witness :
    fallbackExample.execute_tool =
      (.ok 7, { fallbackExample with last_source := "cache" }) :=
  ((granola_execute_tool_fallback fallbackExample).2.1 rfl rfl rfl).1 7 rfl

/-- The MCP sub-provider reports healthy: it is connected and its health
check answers healthy without raising. -/
def mcpReportsHealthy (g : GranolaProvider ε α) : Prop :=
  g.mcp.is_connected = true ∧ g.mcp.healthResult = .ok .healthy

/-- The cache sub-provider reports healthy. -/
def cacheReportsHealthy (g : GranolaProvider ε α) : Prop :=
  g.cache.is_connected = true ∧ g.cache.healthResult = .ok .healthy

/-- The cache sub-provider answers its health check without raising, but the
answer is not healthy. -/
def cacheReportsUnhealthy (g : GranolaProvider ε α) : Prop :=
  g.cache.is_connected = true ∧
    ∃ s, g.cache.healthResult = .ok s ∧ s ≠ ProviderStatus.healthy

/-- A composite provider whose MCP sub-provider is connected but answers a
non-healthy status, with the cache sub-provider not connected. -/
def degradedMcpOnly : GranolaProvider Unit Unit :=
  { mcp := { is_connected := true, execResult := .error (),
               healthResult := .ok .degraded },
    cache := { is_connected := false, execResult := .error (),
               healthResult := .error () },
    last_source := "unknown" }

/-- Counterexample to C6: the composite health check answers `disconnected`
although a sub-provider (the MCP one) is connected — the claim allows
`disconnected` only when neither sub-provider is connected, and would demand
`degraded` here. -/
theorem granola_health_check_counterexample :
    degradedMcpOnly.health_check = ProviderStatus.disconnected ∧
      degradedMcpOnly.mcp.is_connected = true := by
  constructor <;> rfl

/-- C6 as the code has it: the health check is `healthy` exactly when a
sub-provider reports healthy (MCP checked first); `degraded` exactly when no
sub-provider reports healthy but the cache is connected and answers a
non-healthy status without raising; `disconnected` otherwise — in
particular also when the MCP sub-provider alone is connected but unhealthy,
or when the cache's health check raises. -/
theorem granola_health_check_cases {ε α : Type} (g : GranolaProvider ε α) :
    (g.health_check = ProviderStatus.healthy ↔
      mcpReportsHealthy g ∨ cacheReportsHealthy g) ∧
    (g.health_check = ProviderStatus.degraded ↔
      ¬mcpReportsHealthy g ∧ cacheReportsUnhealthy g) ∧
    (g.health_check = ProviderStatus.disconnected ↔
      ¬mcpReportsHealthy g ∧ ¬cacheReportsHealthy g ∧ ¬cacheReportsUnhealthy g) := by
  unfold GranolaProvider.health_check GranolaProvider.cacheHealthStep
  unfold mcpReportsHealthy cacheReportsHealthy cacheReportsUnhealthy
  rcases g with ⟨⟨mc, me, mh⟩, ⟨cc, ce, ch⟩, ls⟩
  rcases mh with e | ms <;> rcases ch with f | cs <;> cases mc <;> cases cc <;>
    first
      | (cases ms <;> cases cs <;> simp)
      | (cases ms <;> simp)
      | (cases cs <;> simp)
      | simp

/-! ## Run records and the run tracker (`app/models/agent_run_log.py`,
`app/agents/run_tracker.py`)

`AgentRunLog` rows; wall-clock instants are integers in minutes, durations in
milliseconds stay abstract.  The result dict an agent's `execute_fn` returns
is a structure whose optional count fields model key presence
(`result.get(k, default)` is `Option.getD`). -/

structure RunLogRecord where
  id : String
  pipeline : String
  agent_name : String
  trigger : String
  status : String
  meetings_processed : Nat := 0
  entities_extracted : Nat := 0
  errors_count : Nat := 0
  tokens_used : Nat := 0
  duration_ms : Option Int := none
  result_summary : Option String := none
  started_at : Int
  completed_at : Option Int := none
  deriving DecidableEq, Repr

/-- The result dict of one agent execution, with the keys the tracker and
`_build_summary` read.  A `none` field models an absent key. -/
structure AgentResult where
  errors : List String := []
  processed : Option Nat := none
  new : Option Nat := none
  updated : Option Nat := none
  skipped : Option Nat := none
  entities : Option Nat := none
  action_items : Option Nat := none
  created : Option Nat := none
  meetings_processed : Option Nat := none
  new_relationships : Option Nat := none
  strengthened : Option Nat := none
  enriched : Option Nat := none
  skipped_reason : Option String := none
  new_meeting_ids : List String := []
  run_id : Option String := none
  deriving DecidableEq, Repr

/-- `result.get("processed", result.get("new", 0))`: the count the tracker
treats as forward progress. -/
def progressOf (r : AgentResult) : Nat :=
  match r.processed with
  | some v => v
  | none => r.new.getD 0

/-- The terminal status the tracker derives on a normal return:
`"failed" if error_count and not result.get("processed", result.get("new",
0)) else "completed"`. -/
def statusAfterSuccess (r : AgentResult) : String :=
  if r.errors.length ≠ 0 ∧ progressOf r = 0 then "failed" else "completed"

/-- `_build_summary`: the human-readable one-liner for the run record. -/
def build_summary (r : AgentResult) : String :=
  let parts : List String :=
    (if r.new.isSome ∨ r.updated.isSome then
      (if r.new.getD 0 ≠ 0 then [toString (r.new.getD 0) ++ " new"] else []) ++
      (if r.updated.getD 0 ≠ 0 then [toString (r.updated.getD 0) ++ " updated"] else []) ++
      (if r.skipped.getD 0 ≠ 0 then [toString (r.skipped.getD 0) ++ " skipped"] else [])
    else []) ++
    (if r.processed.getD 0 ≠ 0 then [toString (r.processed.getD 0) ++ " processed"] else []) ++
    (if r.entities.getD 0 ≠ 0 then [toString (r.entities.getD 0) ++ " entities"] else []) ++
    (if r.action_items.getD 0 ≠ 0 then [toString (r.action_items.getD 0) ++ " action items"] else []) ++
    (if r.created.getD 0 ≠ 0 then [toString (r.created.getD 0) ++ " created"] else []) ++
    (if r.meetings_processed.getD 0 ≠ 0 then [toString (r.meetings_processed.getD 0) ++ " meetings"] else []) ++
    (if r.new_relationships.getD 0 ≠ 0 then [toString (r.new_relationships.getD 0) ++ " new relationships"] else []) ++
    (if r.strengthened.getD 0 ≠ 0 then [toString (r.strengthened.getD 0) ++ " strengthened"] else []) ++
    (if r.enriched.getD 0 ≠ 0 then [toString (r.enriched.getD 0) ++ " enriched"] else []) ++
    (if r.errors.length ≠ 0 then [toString r.errors.length ++ " errors"] else []) ++
    (match r.skipped_reason with | some s => [s] | none => [])
  if parts = [] then "Completed" else String.intercalate ", " parts

/-- The final record the tracker commits on a normal return of
`execute_fn`. -/
def finishRecord (rec : RunLogRecord) (elapsed_ms : Int) (now : Int)
    (r : AgentResult) : RunLogRecord :=
  { rec with
    status := statusAfterSuccess r
    duration_ms := some elapsed_ms
    completed_at := some now
    errors_count := r.errors.length
    result_summary := some (build_summary r)
    meetings_processed := r.new.getD 0 + r.updated.getD 0 +
      r.meetings_processed.getD 0 + r.processed.getD 0
    entities_extracted := r.entities.getD 0 }

/-- The final record the tracker commits when `execute_fn` raises. -/
def failRecord (rec : RunLogRecord) (elapsed_ms : Int) (now : Int)
    (exc : String) : RunLogRecord :=
  { rec with
    status := "failed"
    duration_ms := some elapsed_ms
    completed_at := some now
    errors_count := 1
    result_summary := some ("Error: " ++ exc) }

/-- The outcome of one invocation of an agent's `execute_fn`: a result dict,
or a raised exception rendered to its message text. -/
inductive AgentOutcome
  | ok (r : AgentResult)
  | exn (msg : String)
  deriving DecidableEq, Repr

/-- `run_agent_with_logging`: inserts the `running` record, invokes
`execute_fn` (its behaviour is the `outcome` argument), then commits the
final record; on a normal return it returns the result dict plus the run id,
on an exception it re-raises (`Except.error`).  The two commits are collapsed
into appending the final record to the store. -/
def run_agent_with_logging (agent_name pipeline trigger run_id : String)
    (started_at finished_at elapsed_ms : Int) (outcome : AgentOutcome)
    (store : List RunLogRecord) :
    List RunLogRecord × Except String AgentResult :=
  let running_log : RunLogRecord :=
    { id := run_id, pipeline := pipeline, agent_name := agent_name,
      trigger := trigger, status := "running", started_at := started_at }
  match outcome with
  | .ok r =>
    (store ++ [finishRecord running_log elapsed_ms finished_at r],
     .ok { r with run_id := some run_id })
  | .exn e =>
    (store ++ [failRecord running_log elapsed_ms finished_at e], .error e)

theorem statusAfterSuccess_cases (r : AgentResult) :
    (statusAfterSuccess r = "failed" ↔ r.errors ≠ [] ∧ progressOf r = 0) ∧
    (statusAfterSuccess r = "completed" ↔ ¬(r.errors ≠ [] ∧ progressOf r = 0)) := by
  have hco : (r.errors.length ≠ 0 ∧ progressOf r = 0) ↔
      (r.errors ≠ [] ∧ progressOf r = 0) := by
    constructor
    · rintro ⟨h1, h2⟩
      exact ⟨fun hn => h1 (by simp [hn]), h2⟩
    · rintro ⟨h1, h2⟩
      exact ⟨fun hn => h1 (List.length_eq_zero.mp hn), h2⟩
  unfold statusAfterSuccess
  by_cases hc : r.errors.length ≠ 0 ∧ progressOf r = 0
  · rw [if_pos hc]
    exact ⟨iff_of_true rfl (hco.mp hc),
      iff_of_false (by decide) (fun hx => hx (hco.mp hc))⟩
  · rw [if_neg hc]
    exact ⟨iff_of_false (by decide) (fun hx => hc (hco.mpr hx)),
      iff_of_true rfl (fun hx => hc (hco.mpr hx))⟩

/-- A result dict with an error and a positive progress count field
(`new = 5`) but an explicit `processed = 0`. -/
def progressCounterResult : AgentResult :=
  { errors := ["one document failed"], processed := some 0, new := some 5 }

/-- Counterexample to C4: the tracker persists `failed` although the result
carries a positive progress count field (`new = 5`) — the code only consults
`processed` when that key is present, falling back to `new` only when it is
absent, so the claim's "failed iff errors and no positive progress count
field" does not hold. -/
theorem run_tracker_status_counterexample :
    (run_agent_with_logging "meeting_sync" "sync" "manual" "rid" 0 0 0
        (.ok progressCounterResult) []).1.map RunLogRecord.status = ["failed"] ∧
      progressCounterResult.new = some 5 ∧
      progressCounterResult.errors ≠ [] := by
  refine ⟨rfl, rfl, by decide⟩

/-- C4 as the code has it: on a normal return the tracker persists exactly
one new record whose error count is the length of the result's error list
and whose status is `failed` iff the error list is non-empty and the progress
count — the `processed` value when that key is present, else the `new` value,
else 0 — is zero, `completed` otherwise; and it returns the result dict
unchanged except for the run identifier. -/
theorem run_tracker_success_spec (an p tr rid : String) (t0 t1 ems : Int)
    (store : List RunLogRecord) (r : AgentResult) :
    ((run_agent_with_logging an p tr rid t0 t1 ems (.ok r) store).2 =
      .ok { r with run_id := some rid }) ∧
    (∃ rec, (run_agent_with_logging an p tr rid t0 t1 ems (.ok r) store).1 =
        store ++ [rec] ∧
      rec.errors_count = r.errors.length ∧
      (rec.status = "failed" ↔ r.errors ≠ [] ∧ progressOf r = 0) ∧
      (rec.status = "completed" ↔ ¬(r.errors ≠ [] ∧ progressOf r = 0)) ∧
      rec.agent_name = an ∧ rec.id = rid ∧ rec.pipeline = p ∧
      rec.trigger = tr ∧ rec.started_at = t0 ∧
      rec.completed_at = some t1 ∧ rec.duration_ms = some ems) := by
  refine ⟨rfl, ⟨_, rfl, rfl, ?_, ?_, rfl, rfl, rfl, rfl, rfl, rfl, rfl⟩⟩
  · exact (statusAfterSuccess_cases r).1
  · exact (statusAfterSuccess_cases r).2

/-! ## The scheduler (`app/services/scheduler.py`)

`_run_sync_agents` runs the four sync agents in its hard-wired order
(`meeting_sync`, `profile_builder`, `relationship_builder`,
`entity_extraction`), each wrapped in the tracker and in its own
`try/except` that logs and moves on.  The behaviour of one pipeline run is
described by the outcome each agent's function would produce, plus the
outcome of the Granola health gate (`none` models the registry lookup or the
health check raising).  `newId` supplies the uuid of each tracker call, `now`
the wall-clock instant; per-call durations are collapsed to 0 as the claims
never read them. -/

structure SyncStepOutcomes where
  granolaHealth : Option ProviderStatus
  meetingSync : AgentOutcome
  profileBuilder : AgentOutcome
  relationshipBuilder : AgentOutcome
  entityExtraction : AgentOutcome

/-- `SchedulerService._run_sync_agents`.  Returns the record store, the list
of agents whose `execute_fn` was invoked (in invocation order), and the
returned dict `{"status": "completed", "errors": errors}`.  `meeting_sync`'s
`new_meeting_ids` only feed `entity_extraction`'s arguments, which are
abstracted into its outcome. -/
def runSyncAgents (b : SyncStepOutcomes) (newId : Nat → String) (now : Int)
    (trigger : String) (store : List RunLogRecord) :
    List RunLogRecord × List String × List String :=
  let step1 : List RunLogRecord × List String × List String :=
    match b.granolaHealth with
    | some ProviderStatus.healthy =>
      let r1 := run_agent_with_logging "meeting_sync" "sync" trigger (newId 0)
        now now 0 b.meetingSync store
      match r1.2 with
      | .ok r => (r1.1, ["meeting_sync"], r.errors)
      | .error _ => (r1.1, ["meeting_sync"], [])
    | _ => (store, [], [])
  let r2 := run_agent_with_logging "profile_builder" "sync" trigger (newId 1)
    now now 0 b.profileBuilder step1.1
  let errors2 := step1.2.2 ++ (match r2.2 with | .ok r => r.errors | .error _ => [])
  let r3 := run_agent_with_logging "relationship_builder" "sync" trigger (newId 2)
    now now 0 b.relationshipBuilder r2.1
  let r4 := run_agent_with_logging "entity_extraction" "sync" trigger (newId 3)
    now now 0 b.entityExtraction r3.1
  (r4.1,
   step1.2.1 ++ ["profile_builder", "relationship_builder", "entity_extraction"],
   errors2)

/-- `SchedulerService._run_briefing_agents`: one tracked agent, exceptions
caught, always returns `{"status": "completed", "errors": []}`. -/
def runBriefingAgents (bo : AgentOutcome) (newId : Nat → String) (now : Int)
    (trigger : String) (store : List RunLogRecord) :
    List RunLogRecord × List String × List String :=
  let r := run_agent_with_logging "briefing_generator" "briefing" trigger
    (newId 0) now now 0 bo store
  (r.1, ["briefing_generator"], [])

def SYNC_LOCK_KEY : String := "meeting_assistant:sync_lock"

def BRIEFING_LOCK_KEY : String := "meeting_assistant:briefing_lock"

/-- Redis `SET key NX`: acquire succeeds exactly when the key is not held
(the TTL only matters to crash recovery, which the claims do not touch). -/
def acquire_sync_lock (locks : List String) (key : String) : Bool × List String :=
  if key ∈ locks then (false, locks) else (true, key :: locks)

/-- Redis `DELETE key`. -/
def release_sync_lock (locks : List String) (key : String) : List String :=
  locks.filter fun k => !(k == key)

/-- The dict `trigger_pipeline` (and `_execute_pipeline`) returns. -/
inductive PipelineResult
  | completed (errors : List String)
  | skipped (reason : String)
  deriving DecidableEq, Repr

/-- `SchedulerService._execute_pipeline`. -/
def execute_pipeline (pipeline : String) (b : SyncStepOutcomes)
    (bo : AgentOutcome) (newId : Nat → String) (now : Int) (trigger : String)
    (store : List RunLogRecord) :
    List RunLogRecord × List String × PipelineResult :=
  if pipeline == "sync" then
    let r := runSyncAgents b newId now trigger store
    (r.1, r.2.1, .completed r.2.2)
  else if pipeline == "briefing" then
    let r := runBriefingAgents bo newId now trigger store
    (r.1, r.2.1, .completed r.2.2)
  else (store, [], .skipped ("Unknown pipeline: " ++ pipeline))

/-- `SchedulerService.trigger_pipeline`: acquire the pipeline's lock; on
contention return the skipped dict at once (no agent runs, no record is
written); otherwise execute the pipeline and release the lock.  Every
exception an agent can raise is caught inside `_run_sync_agents` /
`_run_briefing_agents`, so the function always returns a dict — the model's
total return type. -/
def trigger_pipeline (pipeline : String) (b : SyncStepOutcomes)
    (bo : AgentOutcome) (newId : Nat → String) (now : Int) (trigger : String)
    (locks : List String) (store : List RunLogRecord) :
    PipelineResult × List String × List String × List RunLogRecord :=
  let lock_key := if pipeline == "sync" then SYNC_LOCK_KEY else BRIEFING_LOCK_KEY
  let acq := acquire_sync_lock locks lock_key
  if acq.1 = false then (.skipped "Pipeline already running", [], locks, store)
  else
    let res := execute_pipeline pipeline b bo newId now trigger store
    (res.2.2, res.2.1, release_sync_lock acq.2 lock_key, res.1)

theorem run_agent_store_mono {rec : RunLogRecord} (an p tr rid : String)
    (t0 t1 ems : Int) (outcome : AgentOutcome) (store : List RunLogRecord)
    (h : rec ∈ store) :
    rec ∈ (run_agent_with_logging an p tr rid t0 t1 ems outcome store).1 := by
  cases outcome <;> exact List.mem_append_left _ h

/-- The hard-wired invocation order of `_run_sync_agents`, step by step. -/
def syncAgentName : Nat → String
  | 0 => "meeting_sync"
  | 1 => "profile_builder"
  | 2 => "relationship_builder"
  | _ => "entity_extraction"

/-- The outcome a given sync step's `execute_fn` would produce. -/
def syncOutcome (b : SyncStepOutcomes) : Nat → AgentOutcome
  | 0 => b.meetingSync
  | 1 => b.profileBuilder
  | 2 => b.relationshipBuilder
  | _ => b.entityExtraction

theorem sync_fail_record_step0 (b : SyncStepOutcomes) (newId : Nat → String)
    (now : Int) (trigger : String) (store : List RunLogRecord) (e : String)
    (hgate : b.granolaHealth = some ProviderStatus.healthy)
    (hfail : b.meetingSync = .exn e) :
    ∃ rec ∈ (runSyncAgents b newId now trigger store).1,
      rec.agent_name = "meeting_sync" ∧ rec.status = "failed" ∧
      rec.result_summary = some ("Error: " ++ e) := by
  unfold runSyncAgents
  rw [hgate, hfail]
  refine ⟨failRecord
    { id := newId 0, pipeline := "sync", agent_name := "meeting_sync",
      trigger := trigger, status := "running", started_at := now } 0 now e,
    ?_, rfl, rfl, rfl⟩
  apply run_agent_store_mono
  apply run_agent_store_mono
  apply run_agent_store_mono
  exact List.mem_append_right _ (List.mem_singleton_self _)

theorem sync_fail_record_step1 (b : SyncStepOutcomes) (newId : Nat → String)
    (now : Int) (trigger : String) (store : List RunLogRecord) (e : String)
    (hfail : b.profileBuilder = .exn e) :
    ∃ rec ∈ (runSyncAgents b newId now trigger store).1,
      rec.agent_name = "profile_builder" ∧ rec.status = "failed" ∧
      rec.result_summary = some ("Error: " ++ e) := by
  unfold runSyncAgents
  rw [hfail]
  refine ⟨failRecord
    { id := newId 1, pipeline := "sync", agent_name := "profile_builder",
      trigger := trigger, status := "running", started_at := now } 0 now e,
    ?_, rfl, rfl, rfl⟩
  apply run_agent_store_mono
  apply run_agent_store_mono
  exact List.mem_append_right _ (List.mem_singleton_self _)

theorem sync_fail_record_step2 (b : SyncStepOutcomes) (newId : Nat → String)
    (now : Int) (trigger : String) (store : List RunLogRecord) (e : String)
    (hfail : b.relationshipBuilder = .exn e) :
    ∃ rec ∈ (runSyncAgents b newId now trigger store).1,
      rec.agent_name = "relationship_builder" ∧ rec.status = "failed" ∧
      rec.result_summary = some ("Error: " ++ e) := by
  unfold runSyncAgents
  rw [hfail]
  refine ⟨failRecord
    { id := newId 2, pipeline := "sync", agent_name := "relationship_builder",
      trigger := trigger, status := "running", started_at := now } 0 now e,
    ?_, rfl, rfl, rfl⟩
  apply run_agent_store_mono
  exact List.mem_append_right _ (List.mem_singleton_self _)

theorem sync_fail_record_step3 (b : SyncStepOutcomes) (newId : Nat → String)
    (now : Int) (trigger : String) (store : List RunLogRecord) (e : String)
    (hfail : b.entityExtraction = .exn e) :
    ∃ rec ∈ (runSyncAgents b newId now trigger store).1,
      rec.agent_name = "entity_extraction" ∧ rec.status = "failed" ∧
      rec.result_summary = some ("Error: " ++ e) := by
  unfold runSyncAgents
  rw [hfail]
  refine ⟨failRecord
    { id := newId 3, pipeline := "sync", agent_name := "entity_extraction",
      trigger := trigger, status := "running", started_at := now } 0 now e,
    ?_, rfl, rfl, rfl⟩
  exact List.mem_append_right _ (List.mem_singleton_self _)

/-- C3 as the code has it: whichever sync step's `process` raises (the gate
hypothesis is needed for `meeting_sync`, which only runs when the Granola
provider is healthy), the tracker persists that agent's record as failed
with the exception text as summary and re-raises; the scheduler, however,
catches the exception per step, so every agent later in the execution order
is still invoked in that same run. -/
theorem scheduler_failed_agent_record_and_continuation
    (b : SyncStepOutcomes) (newId : Nat → String) (now : Int)
    (trigger : String) (store : List RunLogRecord) (e : String) (i : Nat)
    (hi : i ≤ 3) (hfail : syncOutcome b i = .exn e)
    (hgate : i = 0 → b.granolaHealth = some ProviderStatus.healthy) :
    (∃ rec ∈ (runSyncAgents b newId now trigger store).1,
        rec.agent_name = syncAgentName i ∧ rec.status = "failed" ∧
        rec.result_summary = some ("Error: " ++ e)) ∧
    (∀ j, i < j → j ≤ 3 →
      syncAgentName j ∈ (runSyncAgents b newId now trigger store).2.1) ∧
    (∀ st : List RunLogRecord, ∀ rid : String,
      (run_agent_with_logging (syncAgentName i) "sync" trigger rid
        now now 0 (syncOutcome b i) st).2 = .error e) := by
  interval_cases i
  · refine ⟨sync_fail_record_step0 b newId now trigger store e (hgate rfl) hfail,
      ?_, ?_⟩
    · intro j h1 h3
      interval_cases j <;> simp [syncAgentName, runSyncAgents]
    · intro st rid
      rw [hfail]
      rfl
  · refine ⟨sync_fail_record_step1 b newId now trigger store e hfail, ?_, ?_⟩
    · intro j h1 h3
      interval_cases j <;> simp [syncAgentName, runSyncAgents]
    · intro st rid
      rw [hfail]
      rfl
  · refine ⟨sync_fail_record_step2 b newId now trigger store e hfail, ?_, ?_⟩
    · intro j h1 h3
      interval_cases j
      simp [syncAgentName, runSyncAgents]
    · intro st rid
      rw [hfail]
      rfl
  · refine ⟨sync_fail_record_step3 b newId now trigger store e hfail, ?_, ?_⟩
    · intro j h1 h3
      omega
    · intro st rid
      rw [hfail]
      rfl

/-- A behaviour where `profile_builder` raises and everything else
succeeds. -/
def profileFailureRun : SyncStepOutcomes :=
  { granolaHealth := some .healthy
    meetingSync := .ok {}
    profileBuilder := .exn "boom"
    relationshipBuilder := .ok {}
    entityExtraction := .ok {} }

def seqIds (n : Nat) : String := toString n

/-- Counterexample to C3: `profile_builder` raises uncaught, its record is
persisted failed with the exception text — and `relationship_builder`, later
in the execution order, is still invoked in the same run (the scheduler logs
the exception and moves on instead of aborting the pipeline). -/
theorem scheduler_agent_after_failure_invoked :
    "relationship_builder" ∈
        (runSyncAgents profileFailureRun seqIds 0 "manual" []).2.1 ∧
      "entity_extraction" ∈
        (runSyncAgents profileFailureRun seqIds 0 "manual" []).2.1 ∧
      (∃ rec ∈ (runSyncAgents profileFailureRun seqIds 0 "manual" []).1,
        rec.agent_name = "profile_builder" ∧ rec.status = "failed" ∧
        rec.result_summary = some "Error: boom") := by
  exact ⟨by decide, by decide, by decide⟩

/-- A behaviour where the first step, `meeting_sync`, raises behind a
healthy Granola gate and everything else succeeds. -/
def meetingSyncFailureRun : SyncStepOutcomes :=
  { granolaHealth := some .healthy
    meetingSync := .exn "down"
    profileBuilder := .ok {}
    relationshipBuilder := .ok {}
    entityExtraction := .ok {} }

/-- Witness for C3's amended statement at a concrete failing run of the
first step. -/
theorem scheduler_failed_agent_record_witness :
    (∃ rec ∈ (runSyncAgents meetingSyncFailureRun seqIds 0 "manual" []).1,
        rec.agent_name = syncAgentName 0 ∧ rec.status = "failed" ∧
        rec.result_summary = some ("Error: " ++ "down")) ∧
    (∀ j, 0 < j → j ≤ 3 →
      syncAgentName j ∈ (runSyncAgents meetingSyncFailureRun seqIds 0 "manual" []).2.1) ∧
    (∀ st : List RunLogRecord, ∀ rid : String,
      (run_agent_with_logging (syncAgentName 0) "sync" "manual" rid 0 0 0
        (syncOutcome meetingSyncFailureRun 0) st).2 = .error "down") :=
  scheduler_failed_agent_record_and_continuation meetingSyncFailureRun seqIds 0
    "manual" [] "down" 0 (by decide) rfl (fun _ => rfl)

/-- C7: a manual trigger while the pipeline's lock is already held returns
the "skipped — already running" dict, invokes no agent, writes no record,
and leaves the locks as they are; the contention path returns normally (the
model's return type is total — no exception escapes). -/
theorem trigger_pipeline_contended (pipeline : String) (b : SyncStepOutcomes)
    (bo : AgentOutcome) (newId : Nat → String) (now : Int) (trigger : String)
    (locks : List String) (store : List RunLogRecord)
    (hheld : (if pipeline == "sync" then SYNC_LOCK_KEY else BRIEFING_LOCK_KEY) ∈ locks) :
    trigger_pipeline pipeline b bo newId now trigger locks store =
      (.skipped "Pipeline already running", [], locks, store) := by
  unfold trigger_pipeline acquire_sync_lock
  simp only [beq_iff_eq] at hheld
  simp [hheld]

/-- Witness for C7: triggering "sync" while the sync lock is held. -/
theorem trigger_pipeline_contended_witness :
    trigger_pipeline "sync" profileFailureRun (.ok {}) seqIds 0 "manual"
        [SYNC_LOCK_KEY] [] =
      (.skipped "Pipeline already running", [], [SYNC_LOCK_KEY], []) :=
  trigger_pipeline_contended "sync" profileFailureRun (.ok {}) seqIds 0
    "manual" [SYNC_LOCK_KEY] [] (by decide)

/-! ## Status sweep and cancellation (`app/api/routes/status.py`) -/

def STALE_RUN_TIMEOUT_MINUTES : Int := 10

/-- The stale predicate of the sweep's `UPDATE ... WHERE`: still `running`
and started strictly before `utcnow() - timedelta(minutes=10)`. -/
def isStaleRunning (now : Int) (rec : RunLogRecord) : Bool :=
  rec.status == "running" && decide (rec.started_at < now - STALE_RUN_TIMEOUT_MINUTES)

/-- The `.values(...)` applied to a stale row. -/
def forceFailStale (now : Int) (rec : RunLogRecord) : RunLogRecord :=
  { rec with
    status := "failed"
    completed_at := some now
    result_summary := some ("Timed out after " ++ toString STALE_RUN_TIMEOUT_MINUTES ++ " minutes")
    errors_count := 1 }

/-- The stale-run sweep inside `get_system_status`: one bulk update over the
stored run records. -/
def staleSweep (now : Int) (store : List RunLogRecord) : List RunLogRecord :=
  store.map fun rec => if isStaleRunning now rec then forceFailStale now rec else rec

theorem staleTimeoutMsg_eq :
    "Timed out after " ++ toString STALE_RUN_TIMEOUT_MINUTES ++ " minutes" =
      "Timed out after 10 minutes" := by decide

theorem staleSweep_single (now : Int) (rec : RunLogRecord) :
    (isStaleRunning now rec = true →
      (if isStaleRunning now rec then forceFailStale now rec else rec) =
        forceFailStale now rec) ∧
    (isStaleRunning now rec = false →
      (if isStaleRunning now rec then forceFailStale now rec else rec) = rec) := by
  constructor <;> intro h <;> simp [h]

/-- C5: one sweep transitions exactly the records that are `running` and
older than the 10-minute timeout to `failed` with the timeout summary,
leaves every other record (and the store's length and order) unchanged, and
is idempotent — sweeping the resulting store again at the same instant
changes nothing, so each stale record is force-failed exactly once. -/
theorem stale_sweep_spec (now : Int) (store : List RunLogRecord) :
    (staleSweep now store).length = store.length ∧
    List.Forall₂ (fun old new =>
      (isStaleRunning now old = true →
        new = forceFailStale now old ∧ new.status = "failed" ∧
        new.result_summary = some "Timed out after 10 minutes") ∧
      (isStaleRunning now old = false → new = old))
      store (staleSweep now store) ∧
    staleSweep now (staleSweep now store) = staleSweep now store := by
  refine ⟨by simp [staleSweep], ?_, ?_⟩
  · induction store with
    | nil => exact List.Forall₂.nil
    | cons rec rest ih =>
      refine List.Forall₂.cons ⟨?_, ?_⟩ ih
      · intro h
        simp only
        rw [if_pos h]
        exact ⟨rfl, rfl, congrArg some staleTimeoutMsg_eq⟩
      · intro h
        simp [h]
  · induction store with
    | nil => rfl
    | cons rec rest ih =>
      simp only [staleSweep, List.map_cons, List.map_map] at ih ⊢
      refine congrArg₂ List.cons ?_ ih
      by_cases h : isStaleRunning now rec = true
      · have hforced : isStaleRunning now (forceFailStale now rec) = false := by
          simp [isStaleRunning, forceFailStale]
        simp [h, hforced]
      · simp at h
        simp [h]

/-- The response dict of a successful `cancel_run`. -/
structure CancelResponse where
  status : String
  run_id : String
  deriving DecidableEq, Repr

/-- `cancel_run`: look the run up by id (`scalar_one_or_none`; ids are the
primary key, the first match models it); 404 when absent, 400 when not
`running`, otherwise flip the record to failed/cancelled.  The store is
returned alongside so the error paths exhibit it unchanged; an
`HTTPException` is `(status_code, detail)`.  (`run.started_at` is a
non-nullable datetime, always truthy in Python, so the duration is always
set; minutes are converted to milliseconds.) -/
def cancel_run (now : Int) (run_id : String) (store : List RunLogRecord) :
    List RunLogRecord × Except (Nat × String) CancelResponse :=
  match store.find? fun rec => rec.id == run_id with
  | none => (store, .error (404, "Run not found"))
  | some run =>
    if run.status != "running" then
      (store, .error (400, "Run is already " ++ run.status))
    else
      (store.map fun rec =>
        if rec.id == run_id then
          { rec with
            status := "failed"
            completed_at := some now
            result_summary := some "Cancelled by user"
            errors_count := rec.errors_count + 1
            duration_ms := some ((now - rec.started_at) * 60000) }
        else rec,
       .ok { status := "cancelled", run_id := run_id })

/-- C10: cancelling a run that is not in `running` status fails with the 400
error and returns the store unchanged, and cancelling an unknown run id
fails with the 404 error and returns the store unchanged — the cancellation
path never moves a record out of a terminal status. -/
theorem cancel_run_terminal_guard (now : Int) (rid : String)
    (store : List RunLogRecord) :
    (store.find? (fun rec => rec.id == rid) = none →
      cancel_run now rid store = (store, .error (404, "Run not found"))) ∧
    (∀ run, store.find? (fun rec => rec.id == rid) = some run →
      run.status ≠ "running" →
      cancel_run now rid store = (store, .error (400, "Run is already " ++ run.status))) := by
  constructor
  · intro hnone
    unfold cancel_run
    rw [hnone]
  · intro run hfind hstatus
    unfold cancel_run
    rw [hfind]
    simp only [bne_iff_ne, ne_eq, if_pos hstatus]

/-- A store with one completed record. -/
def cancelStore : List RunLogRecord :=
  [{ id := "r1", pipeline := "sync", agent_name := "meeting_sync",
     trigger := "manual", status := "completed", started_at := 0 }]

/-- Witness for C10 at a record already in a terminal status and at an
unknown id. -/
theorem cancel_run_terminal_guard_witness :
    cancel_run 5 "r1" cancelStore =
        (cancelStore, .error (400, "Run is already completed")) ∧
      cancel_run 5 "r2" cancelStore =
        (cancelStore, .error (404, "Run not found")) :=
  ⟨(cancel_run_terminal_guard 5 "r1" cancelStore).2
      { id := "r1", pipeline := "sync", agent_name := "meeting_sync",
        trigger := "manual", status := "completed", started_at := 0 }
      (by decide) (by decide),
    (cancel_run_terminal_guard 5 "r2" cancelStore).1 (by decide)⟩

end MeetingAssistant
